import Mathlib

/-!
Verification of the invoice PDF exporter's page-layout engine and DBF
schema-inference / decoding logic.

The development shallowly embeds the Python sources:
* `config.py`                      — numeric layout configuration,
* `modules/pdf_generator.py`       — height computation, tier quantization,
  grouping, and the bin-packing page layout (`_layout_invoices`),
* `modules/dbf_reader.py`          — field-structure inference
  (`_detect_field_structure`) and line-item decoding (`_decode_item`).

Python floats are modelled by exact rationals (`ℚ`); Python exceptions by
`Except String`; Python dict records by association lists from field name to a
`Value` (string, number, or none).
-/

namespace InvoicePdf

/-! ## Configuration constants (config.py)

`mm` is reportlab's millimetre unit: 72 points per inch, 25.4 mm per inch.
A4 is 210 mm × 297 mm. -/

def mm : ℚ := 72 / 25.4

def PAGE_HEIGHT : ℚ := 297 * mm

def MAX_INVOICES_PER_PAGE : ℕ := 3

def PAGE_MARGIN_TOP : ℚ := 10 * mm

def PAGE_MARGIN_BOTTOM : ℚ := 10 * mm

def INVOICE_SPACING : ℚ := 1 * mm

def AVAILABLE_HEIGHT : ℚ := PAGE_HEIGHT - PAGE_MARGIN_TOP - PAGE_MARGIN_BOTTOM

/-- DESIGN_CONFIG['header_height'] -/
def header_height : ℚ := 50

/-- DESIGN_CONFIG['table_row_height'] -/
def table_row_height : ℚ := 15

/-- DESIGN_CONFIG['table_header_height'] -/
def table_header_height : ℚ := 20

/-- DESIGN_CONFIG['footer_height'] -/
def footer_height : ℚ := 60

/-- DESIGN_CONFIG['spacing_internal'] -/
def spacing_internal : ℚ := 10

/-! ## Data model (modules/invoice_extractor.py) -/

/-- A decoded line item (`Invoice.add_item` stores these five fields). -/
structure LineItem where
  item_name : String
  unit : String
  quantity : ℚ
  price : ℚ
  amount : ℚ
deriving Repr, DecidableEq

/-- The `Invoice` class: number, date, order number (grouping key) and the
ordered list of line items.  The date plays no role in layout and is kept as
an opaque string. -/
structure Invoice where
  number : String
  date : String
  order_number : String
  items : List LineItem
deriving Repr, DecidableEq

/-! ## Page layout engine (modules/pdf_generator.py) -/

/-- Source `PDFGenerator._calculate_invoice_height`: header + table header +
one row per item + the totals row + footer + internal spacing. -/
def _calculate_invoice_height (invoice : Invoice) : ℚ :=
  header_height + table_header_height
    + (invoice.items.length : ℚ) * table_row_height
    + table_row_height
    + footer_height
    + spacing_internal

/-- Height available for invoice bodies once the spacing reserved for
`MAX_INVOICES_PER_PAGE` invoices is subtracted
(`_get_size_category`, first two lines). -/
def available_for_invoices : ℚ :=
  AVAILABLE_HEIGHT - ((MAX_INVOICES_PER_PAGE - 1 : ℕ) : ℚ) * INVOICE_SPACING

def zone_third : ℚ := available_for_invoices / 3

def zone_half : ℚ := available_for_invoices / 2

def zone_full : ℚ := available_for_invoices

/-- Source `PDFGenerator._get_size_category`: pick the tier for a computed height. -/
def _get_size_category (invoice_height : ℚ) : String × ℚ :=
  if invoice_height ≤ zone_third then ("third", zone_third)
  else if invoice_height ≤ zone_half then ("half", zone_half)
  else ("full", zone_full)

/-- Grouping key used by `_group_invoices_by_order`: the order number, with
falsy (empty) values mapped to the sentinel `"__EMPTY__"`. -/
def keyOf (invoice : Invoice) : String :=
  if invoice.order_number = "" then "__EMPTY__" else invoice.order_number

/-- One step of building the `OrderedDict` of groups: append the invoice to
the group of its key, or add a fresh (key, [invoice]) entry at the end. -/
def insertIntoGroups (groups : List (String × List Invoice)) (k : String)
    (invoice : Invoice) : List (String × List Invoice) :=
  match groups with
  | [] => [(k, [invoice])]
  | (k', g) :: rest =>
    if k' = k then (k', g ++ [invoice]) :: rest
    else (k', g) :: insertIntoGroups rest k invoice

/-- The `OrderedDict` contents after inserting every invoice in order. -/
def groupAssoc (invoices : List Invoice) : List (String × List Invoice) :=
  invoices.foldl (fun gs invoice => insertIntoGroups gs (keyOf invoice) invoice) []

/-- Source `PDFGenerator._group_invoices_by_order`: the list of groups in
first-seen key order. -/
def _group_invoices_by_order (invoices : List Invoice) : List (List Invoice) :=
  (groupAssoc invoices).map Prod.snd

/-- Allocated (tier) height of one invoice. -/
def allocOf (invoice : Invoice) : ℚ :=
  (_get_size_category (_calculate_invoice_height invoice)).2

/-- Source `PDFGenerator._calculate_group_height`: allocated heights of the members
plus one `INVOICE_SPACING` between consecutive members. -/
def _calculate_group_height (group : List Invoice) : ℚ :=
  (group.map allocOf).sum + ((group.length - 1 : ℕ) : ℚ) * INVOICE_SPACING

/-- Stable insertion into a list sorted by descending height: the new element
(which comes earlier in the original list) is placed before every element of
equal or smaller height. -/
def insertDesc (x : List Invoice × ℚ) :
    List (List Invoice × ℚ) → List (List Invoice × ℚ)
  | [] => [x]
  | y :: ys => if y.2 ≤ x.2 then x :: y :: ys else y :: insertDesc x ys

/-- Python's stable `list.sort(key=height, reverse=True)`, modelled as a
stable insertion sort by descending height. -/
def sortGroupsDesc (l : List (List Invoice × ℚ)) : List (List Invoice × ℚ) :=
  l.foldr insertDesc []

/-- One page under construction: the placed `(invoice, allocated, real)`
entries together with the running totals kept by `_layout_invoices` in
`page_heights` and `page_invoice_counts`. -/
structure Page where
  entries : List (Invoice × ℚ × ℚ)
  height : ℚ
  count : ℕ
deriving Repr, DecidableEq

/-- The per-invoice placement step of `_layout_invoices` (step 4).  The state
is the page list in reverse order, so the open (last) page is at the head.
`allocOf invoice` is the `allocated_height` the source recomputes via
`_get_size_category(_calculate_invoice_height(invoice))`. -/
def placeInvoice (rev_pages : List Page) (invoice : Invoice) : List Page :=
  match rev_pages with
  | [] => [⟨[(invoice, allocOf invoice, _calculate_invoice_height invoice)],
      allocOf invoice, 1⟩]
  | p :: rest =>
    if p.height + allocOf invoice + (if 0 < p.count then INVOICE_SPACING else 0)
          ≤ AVAILABLE_HEIGHT + 1 / 100
        ∧ p.count < MAX_INVOICES_PER_PAGE then
      ⟨p.entries ++ [(invoice, allocOf invoice, _calculate_invoice_height invoice)],
        p.height + (if 0 < p.count then INVOICE_SPACING else 0) + allocOf invoice,
        p.count + 1⟩ :: rest
    else
      ⟨[(invoice, allocOf invoice, _calculate_invoice_height invoice)],
        allocOf invoice, 1⟩ :: p :: rest

/-- The order in which `_layout_invoices` walks the invoices: groups sorted by
total height descending, members of a group in group order. -/
def placementOrder (invoices : List Invoice) : List Invoice :=
  ((sortGroupsDesc (( _group_invoices_by_order invoices).map
      (fun g => (g, _calculate_group_height g)))).map Prod.fst).flatten

/-- Source `PDFGenerator._layout_invoices`: group, sort descending, then place each
invoice on the last page when it fits (height test with the 0.01 epsilon and
the page cap), otherwise open a new page. -/
def _layout_invoices (invoices : List Invoice) : List (List (Invoice × ℚ × ℚ)) :=
  if invoices.isEmpty then []
  else (((placementOrder invoices).foldl placeInvoice []).reverse).map Page.entries

/-! ## Claim C4: quantization -/

/-- The three zones, smallest first, paired with their tier names. -/
def zonesWithNames : List (String × ℚ) :=
  [("third", zone_third), ("half", zone_half), ("full", zone_full)]

/-- Modelled from the spec's words: the smallest zone whose size is ≥ the
required height, falling back to the full zone. -/
def specQuantize (h : ℚ) : String × ℚ :=
  ((zonesWithNames.filter (fun z => h ≤ z.2)).headD ("full", zone_full))

/-- Index of the zone a height falls in: the number of zones it exceeds. -/
def zoneIndex (h : ℚ) : ℕ :=
  (zonesWithNames.filter (fun z => ¬ h ≤ z.2)).length

/-- A finished page's summed height as the spec states it: the allocated
heights of its documents plus one spacing unit between consecutive
documents. -/
def pageHeightOf (entries : List (Invoice × ℚ × ℚ)) : ℚ :=
  (entries.map (fun e => e.2.1)).sum
    + ((entries.length - 1 : ℕ) : ℚ) * INVOICE_SPACING

/-- Invariant maintained for every page of the layout state: the running
totals agree with the entries, the document cap and the height budget are
respected, and the height is a multiple of `60 / 127` (every allocated zone
and the spacing are such multiples), which is what rules the epsilon in the
height test out of producing an overfull page. -/
def PageInv (p : Page) : Prop :=
  p.entries ≠ []
    ∧ p.count = p.entries.length
    ∧ p.height = pageHeightOf p.entries
    ∧ p.count ≤ MAX_INVOICES_PER_PAGE
    ∧ p.height ≤ AVAILABLE_HEIGHT
    ∧ ∃ k : ℕ, p.height = 60 * k / 127

/-- The documents of a finished page list, in page order and in order within
each page. -/
def pagesDocs (pages : List (List (Invoice × ℚ × ℚ))) : List Invoice :=
  pages.flatten.map (fun e => e.1)

/-- The documents already placed by an in-progress layout state (the state
keeps pages in reverse order). -/
def stateDocs (s : List Page) : List Invoice :=
  pagesDocs (s.reverse.map Page.entries)

/-- First-match lookup in the grouping association list (what the Python
`OrderedDict` indexing does). -/
def assocLookup (k : String) : List (String × List Invoice) → List Invoice
  | [] => []
  | (k', g) :: rest => if k' = k then g else assocLookup k rest

/-- The grouping keys in order of first appearance in the input. -/
def firstSeenKeys (invoices : List Invoice) : List String :=
  invoices.foldl (fun ks invoice =>
    if keyOf invoice ∈ ks then ks else ks ++ [keyOf invoice]) []

/-! ### Concrete example invoices used by witnesses and scenario claims -/

/-- A generic line item. -/
def itemEx : LineItem := ⟨"widget", "pcs", 1, 2, 2⟩

/-- A lone invoice with a single item and an empty order number. -/
def exSingle : Invoice := ⟨"W1", "2024-01-15", "", [itemEx]⟩

/-- Scenario C8: small invoice (1 item, tier third), grouping key "K1". -/
def smallA : Invoice := ⟨"N1", "2024-01-15", "K1", [itemEx]⟩

/-- Scenario C8: small invoice (1 item, tier third), grouping key "K2". -/
def smallB : Invoice := ⟨"N2", "2024-01-15", "K2", [itemEx]⟩

/-- Scenario C8: small invoice (1 item, tier third), grouping key "K3". -/
def smallC : Invoice := ⟨"N3", "2024-01-15", "K3", [itemEx]⟩

/-- Scenario C8: large invoice (20 items, tier full), grouping key "K4". -/
def largeD : Invoice := ⟨"N4", "2024-01-15", "K4", List.replicate 20 itemEx⟩

/-! ## DBF reader embedding (modules/dbf_reader.py)

A dbfread record value is a string, a number, or something else (None,
dates); the reader's type tests (`isinstance(v, str)`,
`isinstance(v, (int, float))`) only distinguish these three cases. -/

inductive Value where
  | str : String → Value
  | num : ℚ → Value
  | none : Value
deriving Repr, DecidableEq

/-- First binding of a field in a record (association list model of the
dbfread record dict; keys are unique in real records, first match wins). -/
def recordFind : List (String × Value) → String → Option Value
  | [], _ => Option.none
  | (f, v) :: rest, field => if f = field then some v else recordFind rest field

/-- Python `record.get(field)`: `None` when the field is missing. -/
def recordGet (record : List (String × Value)) (field : String) : Value :=
  match recordFind record field with
  | some v => v
  | Option.none => Value.none

/-- Python `record.get(field, default)` where `field` may itself be `None`
(an unassigned role in a field mapping): no key equals `None`, so the
default is returned; a field bound to `None` does
not fall back to the default. -/
def recordGetOptD (record : List (String × Value)) (field : Option String)
    (dflt : Value) : Value :=
  match field with
  | Option.none => dflt
  | some f =>
    match recordFind record f with
    | some v => v
    | Option.none => dflt

/-- Python `record.get(field)` through an optional field name. -/
def getField (record : List (String × Value)) (field : Option String) : Value :=
  match field with
  | Option.none => Value.none
  | some f => recordGet record f

/-- Python truthiness on record values: empty string, zero, and None are
falsy. -/
def isFalsy : Value → Bool
  | .str s => s == ""
  | .num q => q == 0
  | .none => true

/-- Python `v or d`. -/
def pyOr (v d : Value) : Value := if isFalsy v then d else v

/-- Strip leading and trailing whitespace from a character list (Python
`str.strip()`). -/
def trimChars (cs : List Char) : List Char :=
  ((cs.dropWhile Char.isWhitespace).reverse.dropWhile Char.isWhitespace).reverse

/-- Python `str.strip()`. -/
def pyStrip (s : String) : String := String.mk (trimChars s.data)

/-- Digit string to number (most significant first). -/
def digitsVal (cs : List Char) : ℕ :=
  cs.foldl (fun n c => 10 * n + (c.toNat - 48)) 0

def allDigits (cs : List Char) : Bool := cs.all (fun c => c.isDigit)

/-- Parse an unsigned decimal numeral, with an optional single decimal
point (`12`, `12.5`, `.5`, `12.`); anything else fails. -/
def parseUnsigned (cs : List Char) : Option ℚ :=
  if '.' ∈ cs then
    match cs.span (fun c => c ≠ '.') with
    | (ip, _ :: fp) =>
      if (ip ≠ [] ∨ fp ≠ []) ∧ allDigits ip ∧ allDigits fp ∧ '.' ∉ fp then
        some ((digitsVal ip : ℚ) + (digitsVal fp : ℚ) / (10 : ℚ) ^ fp.length)
      else Option.none
    | (_, []) => Option.none
  else if cs ≠ [] ∧ allDigits cs then some ((digitsVal cs : ℚ)) else Option.none

/-- Python `float(s)` on plain decimal strings: optional surrounding
whitespace and sign, then a decimal numeral; a non-numeric string fails
(`ValueError`). -/
def pyFloatStr (s : String) : Option ℚ :=
  match trimChars s.data with
  | [] => Option.none
  | '-' :: rest => (parseUnsigned rest).map (fun q => -q)
  | '+' :: rest => parseUnsigned rest
  | cs => parseUnsigned cs

/-- Python `float(v)`: numbers pass through, strings are parsed
(`ValueError` on a non-numeric string), anything else is a `TypeError`. -/
def pyFloat : Value → Except String ℚ
  | .num q => .ok q
  | .str s =>
    match pyFloatStr s with
    | some q => .ok q
    | Option.none => .error ("could not convert string to float: " ++ s)
  | .none => .error "float() argument must be a string or a real number"

/-- The role → physical-field assignment returned by
`_detect_field_structure` (values may be `None` when a table has too few
fields). -/
structure FieldMapping where
  item : Option String
  unit : Option String
  quantity : Option String
  price : Option String
  amount : Option String
deriving Repr, DecidableEq

/-- A DBF table: field names (declaration order) and records. -/
structure Table where
  field_names : List String
  records : List (List (String × Value))
deriving Repr, DecidableEq

/-- The classification loop of `_detect_field_structure`: walk the fields in
order, skip IDDOC/LINENO, collect short (1–5 chars once stripped) string
values as candidate code fields and positive numbers as candidate numeric
fields. -/
def classifyFields (fields : List String) (first_record : List (String × Value)) :
    List (String × String) × List (String × ℚ) :=
  fields.foldl
    (fun acc field =>
      if field = "IDDOC" ∨ field = "LINENO" then acc
      else
        match recordGet first_record field with
        | .str s =>
          let v := pyStrip s
          if 1 ≤ v.length ∧ v.length ≤ 5 then (acc.1 ++ [(field, v)], acc.2)
          else acc
        | .num q => if 0 < q then (acc.1, acc.2 ++ [(field, q)]) else acc
        | .none => acc)
    ([], [])

/-- Stable ascending insertion by value (Python's stable `sorted(...,
key=lambda x: x[1])`). -/
def insertAsc (x : String × ℚ) : List (String × ℚ) → List (String × ℚ)
  | [] => [x]
  | y :: ys => if x.2 ≤ y.2 then x :: y :: ys else y :: insertAsc x ys

def sortNumericAsc (l : List (String × ℚ)) : List (String × ℚ) :=
  l.foldr insertAsc []

/-- The best-price search: the candidate whose value is closest to the
expected price, first candidate winning ties (strict improvement only, as
the source compares with `<` against the running best). -/
def bestPriceField (cands : List (String × ℚ)) (expected : ℚ) : Option String :=
  (cands.foldl
    (fun best fv =>
      match best with
      | Option.none => some (fv.1, |fv.2 - expected|)
      | some (bf, bd) =>
        if |fv.2 - expected| < bd then some (fv.1, |fv.2 - expected|)
        else some (bf, bd))
    Option.none).map Prod.fst

/-- The final positional fallback of `_detect_field_structure`: any role
still unassigned takes the 3rd/4th/5th/6th/7th declared field (or `None`
when the table is too narrow). -/
def finalFallback (fields : List String)
    (item unit quantity price amount : Option String) : FieldMapping where
  item := match item with
    | some f => some f
    | Option.none => fields.get? 2
  unit := match unit with
    | some f => some f
    | Option.none => fields.get? 3
  quantity := match quantity with
    | some f => some f
    | Option.none => fields.get? 4
  price := match price with
    | some f => some f
    | Option.none => fields.get? 5
  amount := match amount with
    | some f => some f
    | Option.none => fields.get? 6

/-- Source `InvoiceDBFReader._detect_field_structure`: sample the first record
(empty table raises), classify field values, then apply in order: the
standard 1C profile overrides (SP1031/SP1032/SP1033/SP4505/SP1040 whenever
present), the МРН profile for kind `3H8`
(SP4533/SP4537/SP4535/SP4545/SP4542), otherwise the numeric-magnitude
heuristic when a role is still missing, and the positional fallback.  The
heuristic's `qty_val > 0` comparison is a `TypeError` when the sampled
quantity value is not a number. -/
def _detect_field_structure (table : Table) (doc_type : String) :
    Except String FieldMapping :=
  match table.records.head? with
  | Option.none => .error ("Табличная часть для типа " ++ doc_type ++ " пуста")
  | some first_record =>
    let fields := table.field_names
    let cls := classifyFields fields first_record
    let string_fields := cls.1
    let numeric_fields := cls.2
    let item₀ : Option String := (string_fields.head?).map Prod.fst
    let unit₀ : Option String := ((string_fields.drop 1).head?).map Prod.fst
    let item₁ := if "SP1031" ∈ fields then some "SP1031" else item₀
    let unit₁ := if "SP1032" ∈ fields then some "SP1032" else unit₀
    let quantity₁ : Option String :=
      if "SP1033" ∈ fields then some "SP1033" else Option.none
    let price₁ : Option String :=
      if "SP4505" ∈ fields then some "SP4505" else Option.none
    let amount₁ : Option String :=
      if "SP1040" ∈ fields then some "SP1040" else Option.none
    if doc_type = "3H8" then
      let item₂ := if "SP4533" ∈ fields then some "SP4533" else item₁
      let unit₂ := if "SP4537" ∈ fields then some "SP4537" else unit₁
      let quantity₂ := if "SP4535" ∈ fields then some "SP4535" else quantity₁
      let price₂ := if "SP4545" ∈ fields then some "SP4545" else price₁
      let amount₂ := if "SP4542" ∈ fields then some "SP4542" else amount₁
      .ok (finalFallback fields item₂ unit₂ quantity₂ price₂ amount₂)
    else if quantity₁.isNone ∨ price₁.isNone ∨ amount₁.isNone then
      if 3 ≤ numeric_fields.length then
        let sorted_numeric := sortNumericAsc numeric_fields
        let quantity₂ := match quantity₁ with
          | some q => some q
          | Option.none =>
            if 1 < sorted_numeric.length then (sorted_numeric.get? 1).map Prod.fst
            else (sorted_numeric.head?).map Prod.fst
        let amount₂ := match amount₁ with
          | some a => some a
          | Option.none => (sorted_numeric.getLast?).map Prod.fst
        if price₁.isNone ∧ 3 ≤ sorted_numeric.length then
          match recordGetOptD first_record quantity₂ (Value.num 1) with
          | .num qty_val =>
            let amt_val := (((sorted_numeric.getLast?).map Prod.snd)).getD 0
            let expected_price := if 0 < qty_val then amt_val / qty_val else 0
            let price₂ := match
                bestPriceField ((sorted_numeric.drop 1).dropLast) expected_price with
              | some f => some f
              | Option.none => (sorted_numeric.get? 1).map Prod.fst
            .ok (finalFallback fields item₁ unit₁ quantity₂ price₂ amount₂)
          | _ =>
            .error "TypeError: comparison of non-numeric sampled quantity"
        else
          .ok (finalFallback fields item₁ unit₁ quantity₂ price₁ amount₂)
      else
        .ok (finalFallback fields item₁ unit₁ quantity₁ price₁ amount₁)
    else
      .ok (finalFallback fields item₁ unit₁ quantity₁ price₁ amount₁)

/-- The field-mapping loop of `_detect_catalog_files`: detect the structure
of every document kind in turn; the enclosing try/except re-raises the first
failure, so one failing kind aborts the whole detection. -/
def detectFieldMappings :
    List (String × Table) → Except String (List (String × FieldMapping))
  | [] => .ok []
  | (doc_type, tbl) :: rest =>
    match _detect_field_structure tbl doc_type with
    | .error e => .error e
    | .ok fm =>
      match detectFieldMappings rest with
      | .error e => .error e
      | .ok ms => .ok ((doc_type, fm) :: ms)

/-- First-match catalog lookup (code → descriptive name). -/
def catalogFind : List (String × String) → String → Option String
  | [], _ => Option.none
  | (k, v) :: rest, code => if k = code then some v else catalogFind rest code

/-- Source `InvoiceDBFReader._decode_item`: decode the item and unit codes through
the catalogs (placeholder `[Товар <code>]` and the raw code as fallbacks)
and read the three numeric fields with `float(record.get(field, 0) or 0)` —
which raises for a non-numeric string value. -/
def _decode_item (field_mapping : FieldMapping)
    (items_catalog units_catalog : List (String × String))
    (item_record : List (String × Value)) : Except String LineItem :=
  let item_code := match getField item_record field_mapping.item with
    | .str s => pyStrip s
    | _ => ""
  let item_name := match catalogFind items_catalog item_code with
    | some nm => nm
    | Option.none => "[Товар " ++ item_code ++ "]"
  let unit_code := match getField item_record field_mapping.unit with
    | .str s => pyStrip s
    | _ => ""
  let unit_name := match catalogFind units_catalog unit_code with
    | some nm => nm
    | Option.none => unit_code
  match pyFloat (pyOr (recordGetOptD item_record field_mapping.quantity
      (Value.num 0)) (Value.num 0)) with
  | .error e => .error e
  | .ok quantity =>
    match pyFloat (pyOr (recordGetOptD item_record field_mapping.price
        (Value.num 0)) (Value.num 0)) with
    | .error e => .error e
    | .ok price =>
      match pyFloat (pyOr (recordGetOptD item_record field_mapping.amount
          (Value.num 0)) (Value.num 0)) with
      | .error e => .error e
      | .ok amount =>
        .ok ⟨item_name, unit_name, quantity, price, amount⟩

/-- The item-decoding loop of `read_invoices` (`for item_record in items:
decoded_items.append(self._decode_item(...))`): a raising decode aborts the
loop with the exception. -/
def decodeItems (field_mapping : FieldMapping)
    (items_catalog units_catalog : List (String × String)) :
    List (List (String × Value)) → Except String (List LineItem)
  | [] => .ok []
  | r :: rs =>
    match _decode_item field_mapping items_catalog units_catalog r with
    | .error e => .error e
    | .ok item =>
      match decodeItems field_mapping items_catalog units_catalog rs with
      | .error e => .error e
      | .ok items => .ok (item :: items)

/-- The invoice-assembly loop of `read_invoices` over matched documents
(document number with its line records), wrapped in the function's
`try/except` which returns `[]` on any exception: a single raising record
drops the entire batch. -/
def read_invoices_result (field_mapping : FieldMapping)
    (items_catalog units_catalog : List (String × String))
    (docs : List (String × List (List (String × Value)))) :
    List (String × List LineItem) :=
  match goAssemble field_mapping items_catalog units_catalog docs with
  | .ok invoices => invoices
  | .error _ => []
where
  goAssemble (field_mapping : FieldMapping)
      (items_catalog units_catalog : List (String × String)) :
      List (String × List (List (String × Value))) →
        Except String (List (String × List LineItem))
    | [] => .ok []
    | (docno, items) :: rest =>
      match decodeItems field_mapping items_catalog units_catalog items with
      | .error e => .error e
      | .ok decoded =>
        match goAssemble field_mapping items_catalog units_catalog rest with
        | .error e => .error e
        | .ok invs => .ok ((docno, decoded) :: invs)

/-- The standard-profile field mapping for ДРН-style kinds. -/
def stdMapping : FieldMapping :=
  ⟨some "SP1031", some "SP1032", some "SP1033", some "SP4505", some "SP1040"⟩

/-- C3 failing input: a line record whose quantity field holds the
non-numeric string "abc". -/
def badRecord : List (String × Value) :=
  [("IDDOC", Value.str "DOC1"), ("SP1031", Value.str "A1"),
   ("SP1032", Value.str "PC"), ("SP1033", Value.str "abc"),
   ("SP4505", Value.num 10), ("SP1040", Value.num 10)]

/-- C7: a table with zero records. -/
def exEmptyTable : Table := ⟨["IDDOC", "LINENO", "SP1031"], []⟩

/-- C7: a well-formed standard-profile table with one record. -/
def exGoodTable : Table :=
  ⟨["IDDOC", "LINENO", "SP1031", "SP1032", "SP1033", "SP4505", "SP1040"],
   [[("IDDOC", Value.str "DOC1"), ("LINENO", Value.num 1),
     ("SP1031", Value.str "A1"), ("SP1032", Value.str "PC"),
     ("SP1033", Value.num 2), ("SP4505", Value.num 5),
     ("SP1040", Value.num 10)]]⟩

theorem AVAILABLE_HEIGHT_val : AVAILABLE_HEIGHT = 99720 / 127 := by
  unfold AVAILABLE_HEIGHT PAGE_HEIGHT PAGE_MARGIN_TOP PAGE_MARGIN_BOTTOM mm
  norm_num

theorem INVOICE_SPACING_val : INVOICE_SPACING = 360 / 127 := by
  unfold INVOICE_SPACING mm
  norm_num

theorem available_for_invoices_val : available_for_invoices = 99000 / 127 := by
  unfold available_for_invoices MAX_INVOICES_PER_PAGE
  rw [AVAILABLE_HEIGHT_val, INVOICE_SPACING_val]
  norm_num

theorem zone_third_val : zone_third = 33000 / 127 := by
  unfold zone_third; rw [available_for_invoices_val]; norm_num

theorem zone_half_val : zone_half = 49500 / 127 := by
  unfold zone_half; rw [available_for_invoices_val]; norm_num

theorem zone_full_val : zone_full = 99000 / 127 := by
  unfold zone_full; rw [available_for_invoices_val]

theorem zone_third_lt_zone_half : zone_third < zone_half := by
  rw [zone_third_val, zone_half_val]; norm_num

theorem zone_half_lt_zone_full : zone_half < zone_full := by
  rw [zone_half_val, zone_full_val]; norm_num

/-- Lemma: `zoneIndex` spelled out as nested conditionals. -/
theorem zoneIndex_eq (h : ℚ) :
    zoneIndex h = if h ≤ zone_third then 0
      else if h ≤ zone_half then 1
      else if h ≤ zone_full then 2 else 3 := by
  have h32 := zone_third_lt_zone_half
  have h21 := zone_half_lt_zone_full
  unfold zoneIndex zonesWithNames
  by_cases h3 : h ≤ zone_third
  · have h2 : h ≤ zone_half := le_trans h3 (le_of_lt h32)
    have h1 : h ≤ zone_full := le_trans h2 (le_of_lt h21)
    simp [h3, h2, h1, not_lt.mpr h3, not_lt.mpr h2, not_lt.mpr h1]
  · by_cases h2 : h ≤ zone_half
    · have h1 : h ≤ zone_full := le_trans h2 (le_of_lt h21)
      simp [h3, h2, h1, lt_of_not_le h3, not_lt.mpr h2, not_lt.mpr h1]
    · by_cases h1 : h ≤ zone_full
      · simp [h3, h2, h1, lt_of_not_le h3, lt_of_not_le h2, not_lt.mpr h1]
      · simp [h3, h2, h1, lt_of_not_le h3, lt_of_not_le h2, lt_of_not_le h1]

/-- C4: `_get_size_category` returns the smallest of the three zones whose
size is ≥ the required height (full-zone allocation even past the full zone),
and any two heights falling in the same zone receive the same tier. -/
theorem quantize_smallest_fitting_zone (h : ℚ) :
    _get_size_category h = specQuantize h
      ∧ ∀ h' : ℚ, h < h' → zoneIndex h = zoneIndex h' →
          _get_size_category h = _get_size_category h' := by
  have h32 := zone_third_lt_zone_half
  have h21 := zone_half_lt_zone_full
  constructor
  · unfold _get_size_category specQuantize zonesWithNames
    by_cases h3 : h ≤ zone_third
    · have h2 : h ≤ zone_half := le_of_lt (lt_of_le_of_lt h3 h32)
      have h1 : h ≤ zone_full := le_of_lt (lt_of_le_of_lt h2 h21)
      simp [h3, h2, h1]
    · by_cases h2 : h ≤ zone_half
      · have h1 : h ≤ zone_full := le_of_lt (lt_of_le_of_lt h2 h21)
        simp [h3, h2, h1]
      · by_cases h1 : h ≤ zone_full
        · simp [h3, h2, h1]
        · simp [h3, h2, h1]
  · intro h' _ hz
    rw [zoneIndex_eq, zoneIndex_eq] at hz
    unfold _get_size_category
    by_cases h3 : h ≤ zone_third <;> by_cases h2 : h ≤ zone_half <;>
      by_cases h1 : h ≤ zone_full <;> by_cases h3' : h' ≤ zone_third <;>
      by_cases h2' : h' ≤ zone_half <;> by_cases h1' : h' ≤ zone_full <;>
      simp only [h3, h2, h1, h3', h2', h1', if_true, if_false,
        eq_self_iff_true] at hz ⊢ <;>
      first
        | rfl
        | exact absurd hz (by omega)

/-- Witness for C4 at concrete heights 100 < 200, both inside the third
zone. -/
theorem quantize_smallest_fitting_zone_witness :
    _get_size_category 100 = specQuantize 100
      ∧ _get_size_category 100 = _get_size_category 200 :=
  ⟨(quantize_smallest_fitting_zone 100).1,
    (quantize_smallest_fitting_zone 100).2 200 (by norm_num)
      (by
        rw [zoneIndex_eq, zoneIndex_eq, zone_third_val]
        norm_num)⟩

/-! ## Claim C5: height monotone in the item count -/

/-- C5: `_calculate_invoice_height` is monotonically non-decreasing in the
number of line items (stated for arbitrary invoice pairs, which covers pairs
differing only in their line items). -/
theorem invoice_height_monotone (d d' : Invoice)
    (h : d.items.length ≤ d'.items.length) :
    _calculate_invoice_height d ≤ _calculate_invoice_height d' := by
  unfold _calculate_invoice_height table_row_height
  have : (d.items.length : ℚ) ≤ (d'.items.length : ℚ) := by exact_mod_cast h
  nlinarith

/-- Witness for C5: one item versus twenty items. -/
theorem invoice_height_monotone_witness :
    _calculate_invoice_height
        ⟨"1", "d", "", [⟨"a", "u", 1, 1, 1⟩]⟩
      ≤ _calculate_invoice_height
        ⟨"2", "d", "", List.replicate 20 ⟨"a", "u", 1, 1, 1⟩⟩ :=
  invoice_height_monotone _ _ (by decide)

/-! ## Claim C2: per-page cap and height budget -/

theorem size_category_snd_cases (h : ℚ) :
    (_get_size_category h).2 = zone_third ∨ (_get_size_category h).2 = zone_half
      ∨ (_get_size_category h).2 = zone_full := by
  unfold _get_size_category
  by_cases h3 : h ≤ zone_third
  · left; simp [h3]
  · by_cases h2 : h ≤ zone_half
    · right; left; simp [h3, h2]
    · right; right; simp [h3, h2]

theorem alloc_le_available (h : ℚ) :
    (_get_size_category h).2 ≤ AVAILABLE_HEIGHT := by
  rcases size_category_snd_cases h with hh | hh | hh <;> rw [hh, AVAILABLE_HEIGHT_val]
  · rw [zone_third_val]; norm_num
  · rw [zone_half_val]; norm_num
  · rw [zone_full_val]; norm_num

theorem alloc_mul60 (h : ℚ) :
    ∃ m : ℕ, (_get_size_category h).2 = 60 * m / 127 := by
  rcases size_category_snd_cases h with hh | hh | hh
  · exact ⟨550, by rw [hh, zone_third_val]; norm_num⟩
  · exact ⟨825, by rw [hh, zone_half_val]; norm_num⟩
  · exact ⟨1650, by rw [hh, zone_full_val]; norm_num⟩

/-- Any height of the form `60k/127` that passes the `≤ AVAILABLE_HEIGHT +
0.01` test is in fact `≤ AVAILABLE_HEIGHT`: the grid of reachable page
heights has no point inside the epsilon window. -/
theorem mul60_le_available (k : ℕ)
    (hk : (60 * k / 127 : ℚ) ≤ AVAILABLE_HEIGHT + 1 / 100) :
    (60 * k / 127 : ℚ) ≤ AVAILABLE_HEIGHT := by
  rw [AVAILABLE_HEIGHT_val] at hk ⊢
  have h1 : (k : ℚ) ≤ 1662 + 127 / 6000 := by linarith
  have h2 : (k : ℚ) < 1663 := lt_of_le_of_lt h1 (by norm_num)
  have h3 : k < 1663 := by exact_mod_cast h2
  have h4 : k ≤ 1662 := by omega
  have h5 : (k : ℚ) ≤ 1662 := by exact_mod_cast h4
  linarith

theorem pageHeightOf_append (es : List (Invoice × ℚ × ℚ)) (e : Invoice × ℚ × ℚ)
    (hne : es ≠ []) :
    pageHeightOf (es ++ [e]) = pageHeightOf es + INVOICE_SPACING + e.2.1 := by
  unfold pageHeightOf
  have hlen : 1 ≤ es.length := List.length_pos.mpr hne
  rw [List.map_append, List.sum_append, List.length_append]
  have h1 : ((es.length + 1 - 1 : ℕ) : ℚ) = ((es.length - 1 : ℕ) : ℚ) + 1 := by
    have h2 : es.length + 1 - 1 = (es.length - 1) + 1 := by omega
    rw [h2]; push_cast; ring
  simp only [List.map_cons, List.map_nil, List.sum_cons, List.sum_nil, List.length_singleton]
  rw [h1]; ring

theorem placeInvoice_preserves (invoice : Invoice) (s : List Page)
    (hs : ∀ p ∈ s, PageInv p) :
    ∀ p ∈ placeInvoice s invoice, PageInv p := by
  have hfresh : PageInv ⟨[(invoice, allocOf invoice, _calculate_invoice_height invoice)],
      allocOf invoice, 1⟩ := by
    refine ⟨by simp, by simp, ?_, by norm_num [MAX_INVOICES_PER_PAGE], ?_, ?_⟩
    · simp [pageHeightOf]
    · exact alloc_le_available _
    · exact alloc_mul60 _
  intro p hp
  cases s with
  | nil =>
    simp only [placeInvoice] at hp
    rw [List.mem_singleton] at hp
    exact hp ▸ hfresh
  | cons q rest =>
    simp only [placeInvoice] at hp
    by_cases hcond : q.height + allocOf invoice
          + (if 0 < q.count then INVOICE_SPACING else 0) ≤ AVAILABLE_HEIGHT + 1 / 100
        ∧ q.count < MAX_INVOICES_PER_PAGE
    · rw [if_pos hcond, List.mem_cons] at hp
      rcases hp with hp | hp
      · subst hp
        obtain ⟨hne, hcnt, hht, _, _, k, hk⟩ := hs q (List.mem_cons_self q rest)
        have hqpos : 0 < q.count := by
          rw [hcnt]; exact List.length_pos.mpr hne
        obtain ⟨m, hm⟩ := alloc_mul60 (_calculate_invoice_height invoice)
        have hform : q.height + INVOICE_SPACING + allocOf invoice
            = 60 * ((k + 6 + m : ℕ) : ℚ) / 127 := by
          unfold allocOf
          rw [hk, INVOICE_SPACING_val, hm]
          push_cast; ring
        have htest := hcond.1
        rw [if_pos hqpos] at htest
        have htest' : (60 * ((k + 6 + m : ℕ) : ℚ) / 127)
            ≤ AVAILABLE_HEIGHT + 1 / 100 := by
          rw [← hform]; unfold allocOf at htest ⊢; linarith
        have hbud := mul60_le_available (k + 6 + m) htest'
        have hcnt2 := hcond.2
        refine ⟨by simp, by simp [hcnt], ?_, ?_, ?_, ?_⟩
        · show q.height + (if 0 < q.count then INVOICE_SPACING else 0) + allocOf invoice
            = pageHeightOf (q.entries
                ++ [(invoice, allocOf invoice, _calculate_invoice_height invoice)])
          rw [pageHeightOf_append _ _ hne, if_pos hqpos, hht]
        · show q.count + 1 ≤ MAX_INVOICES_PER_PAGE
          omega
        · show q.height + (if 0 < q.count then INVOICE_SPACING else 0) + allocOf invoice
            ≤ AVAILABLE_HEIGHT
          rw [if_pos hqpos, hform]
          exact hbud
        · refine ⟨k + 6 + m, ?_⟩
          show q.height + (if 0 < q.count then INVOICE_SPACING else 0) + allocOf invoice
            = 60 * ((k + 6 + m : ℕ) : ℚ) / 127
          rw [if_pos hqpos]
          exact hform
      · exact hs _ (List.mem_cons_of_mem q hp)
    · rw [if_neg hcond, List.mem_cons] at hp
      rcases hp with hp | hp
      · exact hp ▸ hfresh
      · exact hs _ hp

theorem foldl_place_preserves (order : List Invoice) :
    ∀ s : List Page, (∀ p ∈ s, PageInv p) →
      ∀ p ∈ order.foldl placeInvoice s, PageInv p := by
  induction order with
  | nil => intro s hs; simpa using hs
  | cons x xs ih =>
    intro s hs
    rw [List.foldl_cons]
    exact ih _ (placeInvoice_preserves x s hs)

/-- C2: every page produced by `_layout_invoices` holds at most
`MAX_INVOICES_PER_PAGE` documents and its summed height (allocations plus
inter-document spacing) never exceeds `AVAILABLE_HEIGHT` — the bound holds
with no exception, which in particular covers the claim's accepted
single-document full-zone case. -/
theorem layout_page_caps (invoices : List Invoice)
    (page : List (Invoice × ℚ × ℚ)) (hmem : page ∈ _layout_invoices invoices) :
    page.length ≤ MAX_INVOICES_PER_PAGE ∧ pageHeightOf page ≤ AVAILABLE_HEIGHT := by
  unfold _layout_invoices at hmem
  by_cases hemp : invoices.isEmpty
  · rw [if_pos hemp] at hmem
    simp at hmem
  · rw [if_neg hemp, List.mem_map] at hmem
    obtain ⟨p, hp, rfl⟩ := hmem
    rw [List.mem_reverse] at hp
    obtain ⟨-, hcnt, hht, hcap, hbud, -⟩ :=
      foldl_place_preserves (placementOrder invoices) [] (by simp) p hp
    exact ⟨hcnt ▸ hcap, hht ▸ hbud⟩

/-- Witness for C2: the single page laid out for one concrete invoice. -/
theorem layout_page_caps_witness :
    ([(exSingle, allocOf exSingle, _calculate_invoice_height exSingle)]).length
        ≤ MAX_INVOICES_PER_PAGE
      ∧ pageHeightOf [(exSingle, allocOf exSingle, _calculate_invoice_height exSingle)]
        ≤ AVAILABLE_HEIGHT :=
  layout_page_caps [exSingle] _ (List.mem_singleton.mpr rfl)

/-! ## Claim C1: conservation of documents -/

theorem placeInvoice_docs (s : List Page) (invoice : Invoice) :
    stateDocs (placeInvoice s invoice) = stateDocs s ++ [invoice] := by
  cases s with
  | nil => simp [placeInvoice, stateDocs, pagesDocs]
  | cons q rest =>
    simp only [placeInvoice]
    by_cases hcond : q.height + allocOf invoice
          + (if 0 < q.count then INVOICE_SPACING else 0) ≤ AVAILABLE_HEIGHT + 1 / 100
        ∧ q.count < MAX_INVOICES_PER_PAGE
    · rw [if_pos hcond]
      simp [stateDocs, pagesDocs]
    · rw [if_neg hcond]
      simp [stateDocs, pagesDocs]

theorem foldl_place_docs (order : List Invoice) :
    ∀ s : List Page, stateDocs (order.foldl placeInvoice s) = stateDocs s ++ order := by
  induction order with
  | nil => intro s; simp
  | cons x xs ih =>
    intro s
    rw [List.foldl_cons, ih, placeInvoice_docs, List.append_assoc]
    rfl

theorem insertDesc_perm (x : List Invoice × ℚ) (l : List (List Invoice × ℚ)) :
    (insertDesc x l).Perm (x :: l) := by
  induction l with
  | nil => exact List.Perm.refl _
  | cons y ys ih =>
    unfold insertDesc
    by_cases hc : y.2 ≤ x.2
    · rw [if_pos hc]
    · rw [if_neg hc]
      exact (ih.cons y).trans (List.Perm.swap x y ys)

theorem sortGroupsDesc_perm (l : List (List Invoice × ℚ)) :
    (sortGroupsDesc l).Perm l := by
  induction l with
  | nil => exact List.Perm.refl _
  | cons x xs ih =>
    unfold sortGroupsDesc at ih ⊢
    rw [List.foldr_cons]
    exact (insertDesc_perm x _).trans (ih.cons x)

theorem insertIntoGroups_flatten_perm (gs : List (String × List Invoice))
    (k : String) (invoice : Invoice) :
    ((insertIntoGroups gs k invoice).map Prod.snd).flatten.Perm
      (((gs.map Prod.snd).flatten) ++ [invoice]) := by
  induction gs with
  | nil => simp [insertIntoGroups]
  | cons p rest ih =>
    obtain ⟨k', g⟩ := p
    unfold insertIntoGroups
    by_cases hc : k' = k
    · rw [if_pos hc]
      simp only [List.map_cons, List.flatten_cons]
      rw [List.append_assoc, List.append_assoc]
      exact List.Perm.append_left g List.perm_append_comm
    · rw [if_neg hc]
      simp only [List.map_cons, List.flatten_cons]
      rw [List.append_assoc]
      exact List.Perm.append_left g ih

theorem groupAssoc_flatten_perm (invoices : List Invoice) :
    ∀ gs : List (String × List Invoice),
      ((invoices.foldl (fun gs invoice =>
          insertIntoGroups gs (keyOf invoice) invoice) gs).map Prod.snd).flatten.Perm
        ((gs.map Prod.snd).flatten ++ invoices) := by
  induction invoices with
  | nil => intro gs; simp
  | cons x xs ih =>
    intro gs
    rw [List.foldl_cons]
    refine (ih _).trans ?_
    have h1 := insertIntoGroups_flatten_perm gs (keyOf x) x
    refine (h1.append_right xs).trans ?_
    rw [List.append_assoc]
    exact List.Perm.append_left _ (List.Perm.refl _)

theorem group_flatten_perm (invoices : List Invoice) :
    (_group_invoices_by_order invoices).flatten.Perm invoices := by
  unfold _group_invoices_by_order groupAssoc
  have := groupAssoc_flatten_perm invoices []
  simpa using this

theorem placementOrder_perm (invoices : List Invoice) :
    (placementOrder invoices).Perm invoices := by
  unfold placementOrder
  have h1 : ((sortGroupsDesc ((_group_invoices_by_order invoices).map
        (fun g => (g, _calculate_group_height g)))).map Prod.fst).Perm
      ((((_group_invoices_by_order invoices).map
        (fun g => (g, _calculate_group_height g)))).map Prod.fst) :=
    (sortGroupsDesc_perm _).map Prod.fst
  have h2 : ∀ L : List (List Invoice),
      (L.map (fun g => (g, _calculate_group_height g))).map Prod.fst = L := by
    intro L
    induction L with
    | nil => rfl
    | cons a l ih => simp only [List.map_cons, ih]
  rw [h2] at h1
  exact h1.flatten.trans (group_flatten_perm invoices)

/-- C1: every input document appears in exactly one place of the layout
output — the concatenated page contents are a permutation of the input list,
and the page document counts sum to the input length. -/
theorem layout_conserves_documents (invoices : List Invoice) :
    (pagesDocs (_layout_invoices invoices)).Perm invoices
      ∧ ((_layout_invoices invoices).map List.length).sum = invoices.length := by
  have hperm : (pagesDocs (_layout_invoices invoices)).Perm invoices := by
    unfold _layout_invoices
    by_cases hemp : invoices.isEmpty
    · rw [if_pos hemp]
      rw [List.isEmpty_iff] at hemp
      subst hemp
      simp [pagesDocs]
    · rw [if_neg hemp]
      have h1 : stateDocs ((placementOrder invoices).foldl placeInvoice [])
          = placementOrder invoices := by
        rw [foldl_place_docs]
        simp [stateDocs, pagesDocs]
      unfold stateDocs at h1
      rw [h1]
      exact placementOrder_perm invoices
  refine ⟨hperm, ?_⟩
  have hlen := hperm.length_eq
  unfold pagesDocs at hlen
  rw [List.length_map, List.length_flatten] at hlen
  exact hlen

/-! ## Grouping invariants (towards C9 and C10) -/

theorem insertIntoGroups_hom (k : String) (invoice : Invoice)
    (hk : keyOf invoice = k) :
    ∀ gs : List (String × List Invoice),
      (∀ p ∈ gs, ∀ x ∈ p.2, keyOf x = p.1) →
      ∀ p ∈ insertIntoGroups gs k invoice, ∀ x ∈ p.2, keyOf x = p.1 := by
  intro gs
  induction gs with
  | nil =>
    intro _ p hp x hx
    simp only [insertIntoGroups, List.mem_singleton] at hp
    subst hp
    simp only [List.mem_singleton] at hx
    subst hx
    exact hk
  | cons q rest ih =>
    obtain ⟨k', g⟩ := q
    intro hgs p hp x hx
    simp only [insertIntoGroups] at hp
    by_cases hc : k' = k
    · rw [if_pos hc] at hp
      rcases List.mem_cons.mp hp with hp | hp
      · subst hp
        rcases List.mem_append.mp hx with hx | hx
        · exact hgs (k', g) (List.mem_cons_self _ _) x hx
        · rw [List.mem_singleton] at hx
          subst hx
          rw [hk, hc]
      · exact hgs _ (List.mem_cons_of_mem _ hp) x hx
    · rw [if_neg hc] at hp
      rcases List.mem_cons.mp hp with hp | hp
      · subst hp
        exact hgs (k', g) (List.mem_cons_self _ _) x hx
      · exact ih (fun r hr => hgs r (List.mem_cons_of_mem _ hr)) p hp x hx

theorem insertIntoGroups_keys (k : String) (invoice : Invoice) :
    ∀ gs : List (String × List Invoice),
      (insertIntoGroups gs k invoice).map Prod.fst
        = if k ∈ gs.map Prod.fst then gs.map Prod.fst
          else gs.map Prod.fst ++ [k] := by
  intro gs
  induction gs with
  | nil => simp [insertIntoGroups]
  | cons q rest ih =>
    obtain ⟨k', g⟩ := q
    simp only [insertIntoGroups, List.map_cons]
    by_cases hc : k' = k
    · rw [if_pos hc]
      subst hc
      simp
    · rw [if_neg hc, List.map_cons, ih]
      by_cases hmem : k ∈ rest.map Prod.fst
      · rw [if_pos hmem, if_pos (List.mem_cons_of_mem _ hmem)]
      · rw [if_neg hmem, if_neg ?_]
        · rfl
        · intro hmem'
          rcases List.mem_cons.mp hmem' with h | h
          · exact hc h.symm
          · exact hmem h

theorem insertIntoGroups_lookup (k k' : String) (invoice : Invoice) :
    ∀ gs : List (String × List Invoice),
      assocLookup k' (insertIntoGroups gs k invoice)
        = if k' = k then assocLookup k' gs ++ [invoice]
          else assocLookup k' gs := by
  intro gs
  induction gs with
  | nil =>
    by_cases hc : k' = k
    · subst hc
      simp [insertIntoGroups, assocLookup]
    · rw [if_neg hc]
      simp only [insertIntoGroups, assocLookup]
      rw [if_neg (fun h => hc h.symm)]
  | cons q rest ih =>
    obtain ⟨k₀, g⟩ := q
    simp only [insertIntoGroups]
    by_cases hc0 : k₀ = k
    · rw [if_pos hc0]
      by_cases hc : k' = k
      · subst hc
        simp only [assocLookup]
        rw [if_pos hc0, if_pos hc0]
        simp
      · rw [if_neg hc]
        simp only [assocLookup]
        have hne : ¬ k₀ = k' := fun h => hc (hc0 ▸ h.symm)
        rw [if_neg hne, if_neg hne]
    · rw [if_neg hc0]
      simp only [assocLookup]
      by_cases hc1 : k₀ = k'
      · rw [if_pos hc1, if_pos hc1]
        have : ¬ k' = k := fun h => hc0 (hc1.symm ▸ h)
        rw [if_neg this]
      · rw [if_neg hc1, if_neg hc1, ih]

theorem groupAssoc_hom_general (invoices : List Invoice) :
    ∀ gs : List (String × List Invoice),
      (∀ p ∈ gs, ∀ x ∈ p.2, keyOf x = p.1) →
      ∀ p ∈ invoices.foldl
          (fun gs invoice => insertIntoGroups gs (keyOf invoice) invoice) gs,
        ∀ x ∈ p.2, keyOf x = p.1 := by
  induction invoices with
  | nil => intro gs hgs; simpa using hgs
  | cons x xs ih =>
    intro gs hgs
    rw [List.foldl_cons]
    exact ih _ (insertIntoGroups_hom (keyOf x) x rfl gs hgs)

theorem groupAssoc_hom (invoices : List Invoice) :
    ∀ p ∈ groupAssoc invoices, ∀ x ∈ p.2, keyOf x = p.1 :=
  groupAssoc_hom_general invoices [] (by simp)

theorem foldl_keys (invoices : List Invoice) :
    ∀ gs : List (String × List Invoice),
      (invoices.foldl
          (fun gs invoice => insertIntoGroups gs (keyOf invoice) invoice) gs).map Prod.fst
        = invoices.foldl
            (fun ks invoice =>
              if keyOf invoice ∈ ks then ks else ks ++ [keyOf invoice])
            (gs.map Prod.fst) := by
  induction invoices with
  | nil => intro gs; simp
  | cons x xs ih =>
    intro gs
    rw [List.foldl_cons, List.foldl_cons, ih, insertIntoGroups_keys]

theorem groupAssoc_keys (invoices : List Invoice) :
    (groupAssoc invoices).map Prod.fst = firstSeenKeys invoices := by
  unfold groupAssoc firstSeenKeys
  simpa using foldl_keys invoices []

theorem firstSeen_nodup_general (invoices : List Invoice) :
    ∀ ks : List String, ks.Nodup →
      (invoices.foldl
          (fun ks invoice =>
            if keyOf invoice ∈ ks then ks else ks ++ [keyOf invoice]) ks).Nodup := by
  induction invoices with
  | nil => intro ks h; simpa using h
  | cons x xs ih =>
    intro ks h
    rw [List.foldl_cons]
    apply ih
    by_cases hm : keyOf x ∈ ks
    · rwa [if_pos hm]
    · rw [if_neg hm]
      rw [List.nodup_append]
      refine ⟨h, List.nodup_singleton _, ?_⟩
      intro a ha hb
      rw [List.mem_singleton] at hb
      exact hm (hb ▸ ha)

theorem groupAssoc_keys_nodup (invoices : List Invoice) :
    ((groupAssoc invoices).map Prod.fst).Nodup := by
  rw [groupAssoc_keys]
  exact firstSeen_nodup_general invoices [] List.nodup_nil

theorem groupAssoc_lookup_general (k : String) (invoices : List Invoice) :
    ∀ gs : List (String × List Invoice),
      assocLookup k (invoices.foldl
          (fun gs invoice => insertIntoGroups gs (keyOf invoice) invoice) gs)
        = assocLookup k gs ++ invoices.filter (fun invoice => keyOf invoice == k) := by
  induction invoices with
  | nil => intro gs; simp
  | cons x xs ih =>
    intro gs
    rw [List.foldl_cons, ih, insertIntoGroups_lookup, List.filter_cons]
    by_cases hc : k = keyOf x
    · rw [if_pos hc]
      have hbeq : (keyOf x == k) = true := by
        rw [beq_iff_eq]; exact hc.symm
      rw [hbeq]
      simp [List.append_assoc]
    · rw [if_neg hc]
      have hbeq : (keyOf x == k) = false := by
        rw [beq_eq_false_iff_ne]; exact fun h => hc h.symm
      rw [hbeq]
      simp

theorem groupAssoc_lookup (k : String) (invoices : List Invoice) :
    assocLookup k (groupAssoc invoices)
      = invoices.filter (fun invoice => keyOf invoice == k) := by
  unfold groupAssoc
  simpa [assocLookup] using groupAssoc_lookup_general k invoices []

/-! ## Claim C9: original order within each group is preserved -/

theorem filterk_pointwise_nil (k : String)
    (gs : List (String × List Invoice))
    (hkeys : ∀ p ∈ gs, p.1 ≠ k)
    (hom : ∀ p ∈ gs, ∀ x ∈ p.2, keyOf x = p.1) :
    ∀ p ∈ gs, p.2.filter (fun x => keyOf x == k) = [] := by
  intro p hp
  rw [List.filter_eq_nil_iff]
  intro x hx
  rw [beq_iff_eq, hom p hp x hx]
  exact hkeys p hp

theorem filterk_eq_nil_of_keys_ne (k : String)
    (gs : List (String × List Invoice))
    (hkeys : ∀ p ∈ gs, p.1 ≠ k)
    (hom : ∀ p ∈ gs, ∀ x ∈ p.2, keyOf x = p.1) :
    (gs.map (fun p => p.2.filter (fun x => keyOf x == k))).flatten = [] := by
  rw [List.flatten_eq_nil_iff]
  intro l hl
  rw [List.mem_map] at hl
  obtain ⟨p, hp, rfl⟩ := hl
  exact filterk_pointwise_nil k gs hkeys hom p hp

theorem flatten_filterk_assoc (k : String) :
    ∀ gs : List (String × List Invoice),
      (∀ p ∈ gs, ∀ x ∈ p.2, keyOf x = p.1) →
      ((gs.map Prod.fst).Nodup) →
      (gs.map (fun p => p.2.filter (fun x => keyOf x == k))).flatten
        = assocLookup k gs := by
  intro gs
  induction gs with
  | nil => intro _ _; rfl
  | cons q rest ih =>
    intro hom hnodup
    simp only [List.map_cons, List.flatten_cons, assocLookup]
    rw [List.map_cons, List.nodup_cons] at hnodup
    by_cases hc : q.1 = k
    · rw [if_pos hc]
      have h1 : q.2.filter (fun x => keyOf x == k) = q.2 := by
        rw [List.filter_eq_self]
        intro x hx
        rw [beq_iff_eq, hom q (List.mem_cons_self _ _) x hx]
        exact hc
      have h2 : (rest.map (fun p => p.2.filter (fun x => keyOf x == k))).flatten = [] := by
        apply filterk_eq_nil_of_keys_ne k rest
        · intro p hp hpk
          have hmem : q.1 ∈ rest.map Prod.fst := by
            rw [hc, ← hpk]
            exact List.mem_map_of_mem Prod.fst hp
          exact hnodup.1 hmem
        · exact fun p hp => hom p (List.mem_cons_of_mem _ hp)
      rw [h1, h2, List.append_nil]
    · rw [if_neg hc]
      have h1 : q.2.filter (fun x => keyOf x == k) = [] := by
        rw [List.filter_eq_nil_iff]
        intro x hx
        rw [beq_iff_eq, hom q (List.mem_cons_self _ _) x hx]
        exact hc
      rw [h1, List.nil_append]
      exact ih (fun p hp => hom p (List.mem_cons_of_mem _ hp)) hnodup.2

theorem countP_filterk_le_one (k : String) :
    ∀ gs : List (String × List Invoice),
      (∀ p ∈ gs, ∀ x ∈ p.2, keyOf x = p.1) →
      ((gs.map Prod.fst).Nodup) →
      (gs.map (fun p => p.2.filter (fun x => keyOf x == k))).countP
          (fun l => !l.isEmpty) ≤ 1 := by
  intro gs
  induction gs with
  | nil => intro _ _; simp [List.countP, List.countP.go]
  | cons q rest ih =>
    intro hom hnodup
    rw [List.map_cons, List.nodup_cons] at hnodup
    rw [List.map_cons, List.countP_cons]
    by_cases hc : q.1 = k
    · have h3 : (rest.map (fun p => p.2.filter (fun x => keyOf x == k))).countP
          (fun l => !l.isEmpty) = 0 := by
        rw [List.countP_eq_zero]
        intro l hl
        rw [List.mem_map] at hl
        obtain ⟨p, hp, rfl⟩ := hl
        have hnil : p.2.filter (fun x => keyOf x == k) = [] := by
          apply filterk_pointwise_nil k rest ?_ ?_ p hp
          · intro r hr hrk
            have hmem : q.1 ∈ rest.map Prod.fst := by
              rw [hc, ← hrk]
              exact List.mem_map_of_mem Prod.fst hr
            exact hnodup.1 hmem
          · exact fun r hr => hom r (List.mem_cons_of_mem _ hr)
        rw [hnil]
        simp
      rw [h3]
      split <;> omega
    · have h1 : q.2.filter (fun x => keyOf x == k) = [] := by
        rw [List.filter_eq_nil_iff]
        intro x hx
        rw [beq_iff_eq, hom q (List.mem_cons_self _ _) x hx]
        exact hc
      rw [h1]
      have hle := ih (fun p hp => hom p (List.mem_cons_of_mem _ hp)) hnodup.2
      simpa using hle

theorem flatten_filter_nonempty (M : List (List Invoice)) :
    (M.filter (fun l => !l.isEmpty)).flatten = M.flatten := by
  induction M with
  | nil => rfl
  | cons l rest ih =>
    rw [List.filter_cons]
    by_cases hl : l.isEmpty
    · rw [List.isEmpty_iff] at hl
      subst hl
      simp [ih]
    · have : (!l.isEmpty) = true := by
        rw [Bool.not_eq_true']
        exact Bool.not_eq_true _ ▸ (by simpa using hl)
      rw [this]
      simp [ih]

theorem perm_subsingleton_eq (M M' : List (List Invoice))
    (hp : M.Perm M') (hlen : M'.length ≤ 1) : M = M' := by
  cases M' with
  | nil => exact hp.eq_nil
  | cons a l =>
    cases l with
    | nil => exact List.perm_singleton.mp hp
    | cons b t => simp at hlen

/-- If a list of lists is a permutation of one in which at most one member is
nonempty, the two flatten to the same list. -/
theorem flatten_eq_of_perm_subsingleton (M M' : List (List Invoice))
    (hp : M.Perm M')
    (hcount : M'.countP (fun l => !l.isEmpty) ≤ 1) :
    M.flatten = M'.flatten := by
  have h1 : (M.filter (fun l => !l.isEmpty)).Perm (M'.filter (fun l => !l.isEmpty)) :=
    hp.filter _
  have h2 : (M'.filter (fun l => !l.isEmpty)).length ≤ 1 := by
    rw [← List.countP_eq_length_filter]
    exact hcount
  have h3 := perm_subsingleton_eq _ _ h1 h2
  rw [← flatten_filter_nonempty M, ← flatten_filter_nonempty M', h3]

/-- C9: the documents of each grouping key appear in the layout output (pages
concatenated in order) exactly in their original input order — filtering the
flattened output by any key gives the same list as filtering the input. -/
theorem layout_preserves_group_order (invoices : List Invoice) (k : String) :
    (pagesDocs (_layout_invoices invoices)).filter (fun invoice => keyOf invoice == k)
      = invoices.filter (fun invoice => keyOf invoice == k) := by
  unfold _layout_invoices
  by_cases hemp : invoices.isEmpty
  · rw [if_pos hemp]
    rw [List.isEmpty_iff] at hemp
    subst hemp
    rfl
  · rw [if_neg hemp]
    have h1 : stateDocs ((placementOrder invoices).foldl placeInvoice [])
        = placementOrder invoices := by
      rw [foldl_place_docs]
      simp [stateDocs, pagesDocs]
    unfold stateDocs at h1
    rw [h1]
    unfold placementOrder
    rw [List.filter_flatten, List.map_map]
    set gwh := (_group_invoices_by_order invoices).map
      (fun g => (g, _calculate_group_height g)) with hgwh
    have hM : (List.map ((fun l => l.filter (fun invoice => keyOf invoice == k))
          ∘ Prod.fst) (sortGroupsDesc gwh)).Perm
        (List.map ((fun l => l.filter (fun invoice => keyOf invoice == k))
          ∘ Prod.fst) gwh) :=
      (sortGroupsDesc_perm gwh).map _
    have hM0 : List.map ((fun l => l.filter (fun invoice => keyOf invoice == k))
          ∘ Prod.fst) gwh
        = (groupAssoc invoices).map
          (fun p => p.2.filter (fun x => keyOf x == k)) := by
      rw [hgwh]
      unfold _group_invoices_by_order
      rw [List.map_map, List.map_map]
      rfl
    have hcount : ((groupAssoc invoices).map
          (fun p => p.2.filter (fun x => keyOf x == k))).countP
        (fun l => !l.isEmpty) ≤ 1 :=
      countP_filterk_le_one k (groupAssoc invoices)
        (groupAssoc_hom invoices) (groupAssoc_keys_nodup invoices)
    have h4 := flatten_eq_of_perm_subsingleton _ _ (hM0 ▸ hM) hcount
    rw [h4, flatten_filterk_assoc k (groupAssoc invoices)
      (groupAssoc_hom invoices) (groupAssoc_keys_nodup invoices),
      groupAssoc_lookup]

/-! ## Claim C10: deterministic layout, stable sort, first-seen key order -/

theorem insertDesc_filter (x : List Invoice × ℚ) (h : ℚ) :
    ∀ l : List (List Invoice × ℚ),
      (insertDesc x l).filter (fun p => p.2 == h)
        = if x.2 == h then x :: l.filter (fun p => p.2 == h)
          else l.filter (fun p => p.2 == h) := by
  intro l
  induction l with
  | nil =>
    simp only [insertDesc]
    rw [List.filter_cons, List.filter_nil]
  | cons y ys ih =>
    simp only [insertDesc]
    by_cases hc : y.2 ≤ x.2
    · rw [if_pos hc, List.filter_cons]
    · rw [if_neg hc, List.filter_cons, List.filter_cons, ih]
      by_cases hx : x.2 == h
      · have hyh : (y.2 == h) = false := by
          rw [beq_eq_false_iff_ne]
          intro hy
          rw [beq_iff_eq] at hx
          exact hc (le_of_eq (hy.trans hx.symm))
        simp [hx, hyh]
      · rw [Bool.not_eq_true] at hx
        by_cases hy : y.2 == h
        · simp [hx, hy]
        · rw [Bool.not_eq_true] at hy
          simp [hx, hy]

theorem sortGroupsDesc_stable (l : List (List Invoice × ℚ)) (h : ℚ) :
    (sortGroupsDesc l).filter (fun p => p.2 == h)
      = l.filter (fun p => p.2 == h) := by
  induction l with
  | nil => rfl
  | cons x xs ih =>
    unfold sortGroupsDesc at ih ⊢
    rw [List.foldr_cons, insertDesc_filter, List.filter_cons]
    by_cases hx : x.2 == h
    · rw [hx, ih]
    · rw [Bool.not_eq_true] at hx
      rw [hx, ih]

/-- C10: the layout is a deterministic function of its input (equal inputs
give identical page plans); grouping lists keys in first-seen order, and the
descending sort of groups is stable — the subsequence of groups of any given
total height is unchanged by sorting. -/
theorem layout_deterministic :
    (∀ xs ys : List Invoice, xs = ys → _layout_invoices xs = _layout_invoices ys)
      ∧ (∀ invoices : List Invoice,
          (groupAssoc invoices).map Prod.fst = firstSeenKeys invoices)
      ∧ (∀ (l : List (List Invoice × ℚ)) (h : ℚ),
          (sortGroupsDesc l).filter (fun p => p.2 == h)
            = l.filter (fun p => p.2 == h)) :=
  ⟨fun _ _ hxy => hxy ▸ rfl, groupAssoc_keys, sortGroupsDesc_stable⟩

/-- Witness for C10 at a concrete input. -/
theorem layout_deterministic_witness :
    _layout_invoices [exSingle] = _layout_invoices [exSingle]
      ∧ (groupAssoc [exSingle]).map Prod.fst = firstSeenKeys [exSingle]
      ∧ (sortGroupsDesc [([exSingle], 170)]).filter (fun p => p.2 == 170)
          = [([exSingle], 170)].filter (fun p => p.2 == 170) :=
  ⟨layout_deterministic.1 [exSingle] [exSingle] rfl,
    layout_deterministic.2.1 [exSingle],
    layout_deterministic.2.2 [([exSingle], 170)] 170⟩

/-! ## Claim C8: the 3-small + 1-large scenario -/

theorem placeInvoice_cons_pos (es : List (Invoice × ℚ × ℚ)) (ht : ℚ) (c : ℕ)
    (rest : List Page) (invoice : Invoice)
    (hcond : ht + allocOf invoice + (if 0 < c then INVOICE_SPACING else 0)
          ≤ AVAILABLE_HEIGHT + 1 / 100
        ∧ c < MAX_INVOICES_PER_PAGE) :
    placeInvoice (⟨es, ht, c⟩ :: rest) invoice
      = ⟨es ++ [(invoice, allocOf invoice, _calculate_invoice_height invoice)],
          ht + (if 0 < c then INVOICE_SPACING else 0) + allocOf invoice,
          c + 1⟩ :: rest := by
  simp only [placeInvoice]
  rw [if_pos hcond]

theorem placeInvoice_cons_neg (es : List (Invoice × ℚ × ℚ)) (ht : ℚ) (c : ℕ)
    (rest : List Page) (invoice : Invoice)
    (hcond : ¬ (ht + allocOf invoice + (if 0 < c then INVOICE_SPACING else 0)
          ≤ AVAILABLE_HEIGHT + 1 / 100
        ∧ c < MAX_INVOICES_PER_PAGE)) :
    placeInvoice (⟨es, ht, c⟩ :: rest) invoice
      = ⟨[(invoice, allocOf invoice, _calculate_invoice_height invoice)],
          allocOf invoice, 1⟩ :: ⟨es, ht, c⟩ :: rest := by
  simp only [placeInvoice]
  rw [if_neg hcond]

theorem height_smallA : _calculate_invoice_height smallA = 170 := by
  norm_num [_calculate_invoice_height, smallA, header_height, table_header_height,
    table_row_height, footer_height, spacing_internal]

theorem height_smallB : _calculate_invoice_height smallB = 170 := by
  norm_num [_calculate_invoice_height, smallB, header_height, table_header_height,
    table_row_height, footer_height, spacing_internal]

theorem height_smallC : _calculate_invoice_height smallC = 170 := by
  norm_num [_calculate_invoice_height, smallC, header_height, table_header_height,
    table_row_height, footer_height, spacing_internal]

theorem height_largeD : _calculate_invoice_height largeD = 455 := by
  norm_num [_calculate_invoice_height, largeD, header_height, table_header_height,
    table_row_height, footer_height, spacing_internal]

theorem alloc_smallA : allocOf smallA = zone_third := by
  unfold allocOf
  rw [height_smallA]
  unfold _get_size_category
  rw [if_pos (by rw [zone_third_val]; norm_num : (170 : ℚ) ≤ zone_third)]

theorem alloc_smallB : allocOf smallB = zone_third := by
  unfold allocOf
  rw [height_smallB]
  unfold _get_size_category
  rw [if_pos (by rw [zone_third_val]; norm_num : (170 : ℚ) ≤ zone_third)]

theorem alloc_smallC : allocOf smallC = zone_third := by
  unfold allocOf
  rw [height_smallC]
  unfold _get_size_category
  rw [if_pos (by rw [zone_third_val]; norm_num : (170 : ℚ) ≤ zone_third)]

theorem alloc_largeD : allocOf largeD = zone_full := by
  unfold allocOf
  rw [height_largeD]
  unfold _get_size_category
  rw [if_neg (by rw [zone_third_val]; norm_num : ¬ (455 : ℚ) ≤ zone_third),
    if_neg (by rw [zone_half_val]; norm_num : ¬ (455 : ℚ) ≤ zone_half)]

theorem group_height_singleton (x : Invoice) :
    _calculate_group_height [x] = allocOf x := by
  simp [_calculate_group_height]

/-- Full evaluation of the layout on the C8 scenario input: the large
(full-tier) group is sorted first, so it opens page 1 and the three thirds
share page 2. -/
theorem layout_scenario_eval :
    _layout_invoices [smallA, smallB, smallC, largeD]
      = [[(largeD, zone_full, 455)],
         [(smallA, zone_third, 170), (smallB, zone_third, 170),
          (smallC, zone_third, 170)]] := by
  have hgroups : _group_invoices_by_order [smallA, smallB, smallC, largeD]
      = [[smallA], [smallB], [smallC], [largeD]] := by rfl
  have hn : ¬ (zone_full ≤ zone_third) := by
    rw [zone_full_val, zone_third_val]; norm_num
  have hsort : sortGroupsDesc
        [([smallA], zone_third), ([smallB], zone_third),
         ([smallC], zone_third), ([largeD], zone_full)]
      = [([largeD], zone_full), ([smallA], zone_third),
         ([smallB], zone_third), ([smallC], zone_third)] := by
    simp [sortGroupsDesc, insertDesc, hn, le_refl]
  have horder : placementOrder [smallA, smallB, smallC, largeD]
      = [largeD, smallA, smallB, smallC] := by
    unfold placementOrder
    rw [hgroups]
    simp only [List.map_cons, List.map_nil, group_height_singleton,
      alloc_smallA, alloc_smallB, alloc_smallC, alloc_largeD]
    rw [hsort]
    simp
  have s1 : placeInvoice [] largeD
      = [⟨[(largeD, zone_full, 455)], zone_full, 1⟩] := by
    simp only [placeInvoice]
    rw [alloc_largeD, height_largeD]
  have s2 : placeInvoice [⟨[(largeD, zone_full, 455)], zone_full, 1⟩] smallA
      = [⟨[(smallA, zone_third, 170)], zone_third, 1⟩,
         ⟨[(largeD, zone_full, 455)], zone_full, 1⟩] := by
    rw [placeInvoice_cons_neg _ _ _ _ _ ?_]
    · rw [alloc_smallA, height_smallA]
    · rintro ⟨h1, -⟩
      rw [if_pos (by norm_num : (0 : ℕ) < 1), alloc_smallA, zone_full_val,
        zone_third_val, INVOICE_SPACING_val, AVAILABLE_HEIGHT_val] at h1
      norm_num at h1
  have s3 : placeInvoice
        [⟨[(smallA, zone_third, 170)], zone_third, 1⟩,
         ⟨[(largeD, zone_full, 455)], zone_full, 1⟩] smallB
      = [⟨[(smallA, zone_third, 170), (smallB, zone_third, 170)],
          zone_third + INVOICE_SPACING + zone_third, 2⟩,
         ⟨[(largeD, zone_full, 455)], zone_full, 1⟩] := by
    rw [placeInvoice_cons_pos _ _ _ _ _ ?_]
    · rw [alloc_smallB, height_smallB, if_pos (by norm_num : (0 : ℕ) < 1)]
      simp
    · constructor
      · rw [if_pos (by norm_num : (0 : ℕ) < 1), alloc_smallB, zone_third_val,
          INVOICE_SPACING_val, AVAILABLE_HEIGHT_val]
        norm_num
      · norm_num [MAX_INVOICES_PER_PAGE]
  have s4 : placeInvoice
        [⟨[(smallA, zone_third, 170), (smallB, zone_third, 170)],
          zone_third + INVOICE_SPACING + zone_third, 2⟩,
         ⟨[(largeD, zone_full, 455)], zone_full, 1⟩] smallC
      = [⟨[(smallA, zone_third, 170), (smallB, zone_third, 170),
           (smallC, zone_third, 170)],
          zone_third + INVOICE_SPACING + zone_third + INVOICE_SPACING + zone_third, 3⟩,
         ⟨[(largeD, zone_full, 455)], zone_full, 1⟩] := by
    rw [placeInvoice_cons_pos _ _ _ _ _ ?_]
    · rw [alloc_smallC, height_smallC, if_pos (by norm_num : (0 : ℕ) < 2)]
      simp
    · constructor
      · rw [if_pos (by norm_num : (0 : ℕ) < 2), alloc_smallC, zone_third_val,
          INVOICE_SPACING_val, AVAILABLE_HEIGHT_val]
        norm_num
      · norm_num [MAX_INVOICES_PER_PAGE]
  unfold _layout_invoices
  rw [if_neg (by simp : ¬ ([smallA, smallB, smallC, largeD].isEmpty = true))]
  rw [horder, List.foldl_cons, s1, List.foldl_cons, s2, List.foldl_cons, s3,
    List.foldl_cons, s4, List.foldl_nil]
  simp

/-- C8 (amended): on the scenario input the layout produces exactly 2 pages,
but page 1 holds the large full-tier document alone (the descending sort
places the tallest group first) and page 2 holds the 3 small third-tier
documents in input order. -/
theorem layout_scenario_two_pages :
    (_layout_invoices [smallA, smallB, smallC, largeD]).length = 2
      ∧ (_layout_invoices [smallA, smallB, smallC, largeD]).map
          (fun page => page.map (fun e => e.1))
        = [[largeD], [smallA, smallB, smallC]]
      ∧ _layout_invoices [smallA, smallB, smallC, largeD]
        = [[(largeD, zone_full, 455)],
           [(smallA, zone_third, 170), (smallB, zone_third, 170),
            (smallC, zone_third, 170)]] := by
  refine ⟨?_, ?_, layout_scenario_eval⟩ <;> rw [layout_scenario_eval] <;> rfl

/-- C8 counterexample: the claim as stated — page 1 holding the three small
documents — is false on this input: the first page holds the large document
alone. -/
theorem layout_scenario_claim_false :
    ¬ ((_layout_invoices [smallA, smallB, smallC, largeD]).map
        (fun page => page.map (fun e => e.1))
      = [[smallA, smallB, smallC], [largeD]]) := by
  rw [layout_scenario_eval]
  intro h
  have h0 := congrArg (fun l => (l.headD []).length) h
  simp at h0

/-! ## Claim C3: non-numeric quantity string -/

/-- C3 evidence: on a line record whose quantity field holds the non-numeric
string "abc", `_decode_item` raises (`float("abc")` is a `ValueError`), and
`read_invoices`' enclosing try/except turns the whole batch into `[]` — the
Document is not returned with quantity 0. -/
theorem decode_nonnumeric_quantity_aborts :
    (_decode_item stdMapping [] [] badRecord).isOk = false
      ∧ read_invoices_result stdMapping [] [] [("DRN-7", [badRecord])] = [] := by
  constructor
  · rfl
  · rfl

/-! ## Claim C6: constant profiles take priority -/

/-- C6: whenever the table's field set contains a recognized constant
profile, `_detect_field_structure` returns exactly the profile's field
names, for any sampled record contents: the standard
SP1031/SP1032/SP1033/SP4505/SP1040 profile for non-МРН kinds, and the
SP4533/SP4537/SP4535/SP4545/SP4542 profile for kind "3H8". -/
theorem infer_field_roles_profile_priority (fields : List String)
    (rec : List (String × Value)) (rest : List (List (String × Value)))
    (doc_type : String) :
    (doc_type ≠ "3H8" → "SP1031" ∈ fields → "SP1032" ∈ fields →
      "SP1033" ∈ fields → "SP4505" ∈ fields → "SP1040" ∈ fields →
      _detect_field_structure ⟨fields, rec :: rest⟩ doc_type = .ok stdMapping)
      ∧ (doc_type = "3H8" → "SP4533" ∈ fields → "SP4537" ∈ fields →
        "SP4535" ∈ fields → "SP4545" ∈ fields → "SP4542" ∈ fields →
        _detect_field_structure ⟨fields, rec :: rest⟩ doc_type
          = .ok ⟨some "SP4533", some "SP4537", some "SP4535",
              some "SP4545", some "SP4542"⟩) := by
  constructor
  · intro hne h1 h2 h3 h4 h5
    simp [_detect_field_structure, h1, h2, h3, h4, h5, hne, finalFallback, stdMapping]
  · intro heq h1 h2 h3 h4 h5
    simp [_detect_field_structure, h1, h2, h3, h4, h5, heq, finalFallback]

/-- Witness for C6: concrete tables carrying each profile, with misleading
record contents for the standard profile. -/
theorem infer_field_roles_profile_priority_witness :
    _detect_field_structure
        ⟨["IDDOC", "LINENO", "SP1031", "SP1032", "SP1033", "SP4505", "SP1040"],
         [[("SP1031", Value.num 7), ("SP1033", Value.str "weird"),
           ("SP4505", Value.num 3), ("SP1040", Value.num 4)]]⟩ "S3"
      = .ok stdMapping
    ∧ _detect_field_structure
        ⟨["SP4533", "SP4537", "SP4535", "SP4545", "SP4542",
          "SP1031", "SP1032", "SP1033", "SP4505", "SP1040"], [[]]⟩ "3H8"
      = .ok ⟨some "SP4533", some "SP4537", some "SP4535",
          some "SP4545", some "SP4542"⟩ :=
  ⟨(infer_field_roles_profile_priority _ _ _ _).1 (by decide) (by decide)
      (by decide) (by decide) (by decide) (by decide),
    (infer_field_roles_profile_priority _ _ _ _).2 rfl (by decide) (by decide)
      (by decide) (by decide) (by decide)⟩

/-! ## Claim C7: empty sample table -/

/-- C7 counterexample: with one empty-table kind ("S3") and one well-formed
kind ("ZZ"), detection fails as a whole: no field mapping is produced for
the healthy kind either, contradicting "fatal for that document kind
only". -/
theorem infer_empty_aborts_all_kinds :
    detectFieldMappings [("S3", exEmptyTable), ("ZZ", exGoodTable)]
        = .error "Табличная часть для типа S3 пуста"
      ∧ (detectFieldMappings [("S3", exEmptyTable), ("ZZ", exGoodTable)]).isOk
        = false := by
  constructor
  · rfl
  · rfl

/-- C7 (amended): a zero-record table makes `_detect_field_structure` fail
with the empty-table error (no default mapping is fabricated), and via the
detection loop's enclosing try/except this failure aborts schema detection
for every document kind of the run, not just the failing kind. -/
theorem infer_empty_table_fatal :
    (∀ (fields : List String) (doc_type : String),
        _detect_field_structure ⟨fields, []⟩ doc_type
          = .error ("Табличная часть для типа " ++ doc_type ++ " пуста"))
      ∧ ∀ tables : List (String × Table),
          (∃ p ∈ tables, p.2.records = []) →
            (detectFieldMappings tables).isOk = false := by
  constructor
  · intro fields doc_type
    rfl
  · intro tables
    induction tables with
    | nil =>
      rintro ⟨p, hp, -⟩
      simp at hp
    | cons q rest ih =>
      rintro ⟨p, hp, hempty⟩
      obtain ⟨dt, tbl⟩ := q
      rcases List.mem_cons.mp hp with hp | hp
      · subst hp
        have herr : _detect_field_structure tbl dt
            = .error ("Табличная часть для типа " ++ dt ++ " пуста") := by
          unfold _detect_field_structure
          rw [hempty]
          rfl
        simp only [detectFieldMappings, herr]
        rfl
      · have hfail := ih ⟨p, hp, hempty⟩
        simp only [detectFieldMappings]
        cases hdet : _detect_field_structure tbl dt with
        | error e => rfl
        | ok fm =>
          cases hrest : detectFieldMappings rest with
          | error e => rfl
          | ok ms =>
            rw [hrest] at hfail
            exact Bool.noConfusion hfail

/-- Witness for C7's amended claim at a concrete run. -/
theorem infer_empty_table_fatal_witness :
    _detect_field_structure ⟨["IDDOC", "LINENO", "SP1031"], []⟩ "S3"
        = .error "Табличная часть для типа S3 пуста"
      ∧ (detectFieldMappings [("S3", exEmptyTable), ("ZZ", exGoodTable)]).isOk
        = false :=
  ⟨infer_empty_table_fatal.1 ["IDDOC", "LINENO", "SP1031"] "S3",
    infer_empty_table_fatal.2 [("S3", exEmptyTable), ("ZZ", exGoodTable)]
      ⟨("S3", exEmptyTable), by simp, rfl⟩⟩

end InvoicePdf
